import Mathlib

/-!
Shallow embedding of the federated training-loop dispatcher in
`tensorflow_federated/python/research/utils/training_loop.py`: the Python
`dict` operations it uses, the metrics writer `_write_metrics`, the body of
the `while round_num < total_rounds` loop in `run`, checkpoint resumption and
the final test-evaluation pass, together with theorems settling the spec
claims about them.
-/

namespace TrainingLoop

/-- Scalar metric values: integer-valued metrics (client counts, round
numbers) or opaque real-valued measurements (elapsed seconds, l2 norms).
Real-valued measurements are identified by a token since their numeric value
never influences control flow in the source. -/
inductive MVal where
  | nat : Nat → MVal
  | meas : Nat → MVal
deriving DecidableEq, Repr

/-- A Python `dict` with string keys: an insertion-ordered association list
(the loop only ever builds dicts with unique keys). -/
abbrev Dict := List (String × MVal)

/-- Python errors raised by the code under study. -/
inductive PyError where
  | typeError
  | keyError
  | otherError
deriving DecidableEq, Repr

/-- `d[k]` lookup, `none` when the key is absent (first match wins, as in a
dict where keys are unique). -/
def dget : Dict → String → Option MVal
  | [], _ => none
  | p :: t, k => if p.1 = k then some p.2 else dget t k

/-- `d[k] = v`: overwrite in place when the key exists (keeping its
position), otherwise append at the end, as Python dict assignment does. -/
def dinsert : Dict → String → MVal → Dict
  | [], k, v => [(k, v)]
  | p :: t, k, v => if p.1 = k then (k, v) :: t else p :: dinsert t k v

/-- `d.update(other)`: assign every entry of `other` into `d` in order. -/
def dupdate (d other : Dict) : Dict :=
  other.foldl (fun a p => dinsert a p.1 p.2) d

/-- `d.pop(k)` with no default: remove the entry for `k`, raising `KeyError`
when it is absent. -/
def dpop : Dict → String → Except PyError Dict
  | [], _ => .error .keyError
  | p :: t, k => if p.1 = k then .ok t else (dpop t k).map (fun d => p :: d)

/-- Insert an entry into a key-sorted dict, keeping it sorted. -/
def insertByKey (p : String × MVal) : Dict → Dict
  | [] => [p]
  | q :: t => if p.1 ≤ q.1 then p :: q :: t else q :: insertByKey p t

/-- Sort a dict by key (dm-tree traverses dict keys in sorted order). -/
def sortKeys (d : Dict) : Dict := d.foldr insertByKey []

/-- `tree.flatten_with_path` applied to the record
`(eval := evalMetrics, round := roundNum, train := trainMetrics)` followed by
joining each path with a slash: dm-tree visits dict keys in sorted order, and
the three top-level keys sort as eval, round, train. -/
def flattenMetrics (trainMetrics evalMetrics : Dict) (roundNum : Nat) : Dict :=
  (sortKeys evalMetrics).map (fun p => ("eval/" ++ p.1, p.2))
    ++ [("round", MVal.nat roundNum)]
    ++ (sortKeys trainMetrics).map (fun p => ("train/" ++ p.1, p.2))

/-- One row of `metrics.csv`, kept in pre-flattening form (its column/value
pairs are recovered by `flattenMetrics`). -/
structure Row where
  round : Nat
  train : Dict
  eval : Dict
deriving DecidableEq, Repr

/-- A streaming scalar summary event: name, value and step. -/
abbrev Event := String × MVal × Nat

/-- The two metric stores owned by the writer: the streaming summary sink and
the `metrics.csv` table, `none` while the file does not exist yet. -/
structure Sinks where
  summary : List Event
  table : Option (List Row)
deriving DecidableEq, Repr

/-- An argument passed for one of the two metrics mappings: either an actual
mapping or some non-mapping value. -/
inductive MetricsArg where
  | dict : Dict → MetricsArg
  | nonDict : MetricsArg
deriving DecidableEq, Repr

/-- An argument passed for the round number: either an `int` or some
non-integer value. -/
inductive RoundArg where
  | int : Nat → RoundArg
  | nonInt : RoundArg
deriving DecidableEq, Repr

/-- `_write_metrics` (lines 82 to 116): three type checks, then one summary
event per flattened metric with the round number as step, then the table
write: when `metrics.csv` exists its rows are read back, truncated with
`metrics[:round_num]` (which keeps the first `round_num` rows positionally)
and the new row is appended; otherwise a one-row table is created. The result
is the sinks as left behind together with the raised error, if any; a raise
happens before either sink is touched, so on an error the sinks are returned
unchanged. -/
def write_metrics (trainArg evalArg : MetricsArg) (roundArg : RoundArg)
    (s : Sinks) : Sinks × Option PyError :=
  match trainArg with
  | .nonDict => (s, some .typeError)
  | .dict trainMetrics =>
    match evalArg with
    | .nonDict => (s, some .typeError)
    | .dict evalMetrics =>
      match roundArg with
      | .nonInt => (s, some .typeError)
      | .int roundNum =>
        let flat := flattenMetrics trainMetrics evalMetrics roundNum
        let summary2 := s.summary ++ flat.map (fun p => (p.1, p.2, roundNum))
        let row : Row := ⟨roundNum, trainMetrics, evalMetrics⟩
        let table2 :=
          match s.table with
          | some t => t.take roundNum ++ [row]
          | none => [row]
        (⟨summary2, some table2⟩, none)

/-- The three TensorFlow error kinds caught by the try/except around
`iterative_process.next` (lines 199 to 200): `FailedPreconditionError`,
`NotFoundError` and `InternalError`. -/
inductive Fault where
  | failedPrecondition
  | notFound
  | internal
deriving DecidableEq, Repr

/-- An injected outcome for one call to `iterative_process.next`: `none`
means the call returns normally, `fault` is one of the three caught transient
kinds, and `exc` is any other exception, which the loop does not catch. -/
inductive Interrupt where
  | fault : Fault → Interrupt
  | exc : PyError → Interrupt
deriving DecidableEq, Repr

/-- The `IterationResult` of the adapter: a new server state and the round's
metrics mapping. -/
structure IterResult (S : Type) where
  state : S
  metrics : Dict

/-- The `IterativeProcessPythonAdapter` collaborator: the state produced by
its zero-argument state constructor, and `next(state, data)` modelled as a
deterministic function (failures are injected separately through `Interrupt`
schedules). -/
structure Process (S D : Type) where
  initial : S
  next : S → D → IterResult S

/-- Opaque wall-clock measurements (`time.time()` deltas) for one loop
iteration: dataset preparation, training, checkpoint save and evaluation. -/
structure Timings where
  prep : Nat
  train : Nat
  ckpt : Nat
  eval : Nat
deriving DecidableEq, Repr

/-- The flags consumed by `run`: `total_rounds`, `rounds_per_checkpoint` and
`rounds_per_eval`. -/
structure Config where
  totalRounds : Nat
  roundsPerCheckpoint : Nat
  roundsPerEval : Nat
deriving DecidableEq, Repr

/-- The orchestrator's mutable state while `run` executes: the server state,
the round counter, the cumulative set of sampled client ids, how many times
the default executor stack was rebuilt, the checkpoint store contents and the
two metric sinks. -/
structure LoopState (S : Type) where
  state : S
  roundNum : Nat
  uniqueClients : Finset String
  executorRebuilds : Nat
  checkpoints : List (Nat × S)
  sinks : Sinks
deriving DecidableEq

/-- The key unconditionally popped from the train metrics at line 218. -/
def kerasKey : String := "keras_training_time_client_sum_sec"

/-- Lines 188 to 214: the metrics the loop itself accumulates before the
round metrics are merged in: `prepare_datasets_secs`, `training_secs`,
`model_delta_l2_norm` and `num_unique_clients`, in insertion order. -/
def preMetrics (l2val numUnique : Nat) (t : Timings) : Dict :=
  let tm := [("prepare_datasets_secs", MVal.meas t.prep)]
  let tm := dinsert tm "training_secs" (.meas t.train)
  let tm := dinsert tm "model_delta_l2_norm" (.meas l2val)
  dinsert tm "num_unique_clients" (.nat numUnique)

/-- Lines 215 to 218: `train_metrics.update(round_metrics)` followed by the
unconditional `pop` of `keras_training_time_client_sum_sec`, which raises
`KeyError` when the key is absent. -/
def buildTrainMetrics (l2val numUnique : Nat) (roundMetrics : Dict)
    (t : Timings) : Except PyError Dict :=
  dpop (dupdate (preMetrics l2val numUnique t) roundMetrics) kerasKey

/-- The checkpoint condition of lines 223 to 224. The source compares
`round_num == total_rounds - 1` over Python ints; over `Nat` this is written
as `round_num + 1 == total_rounds`, which agrees with the integer comparison
for every value including `total_rounds = 0`. -/
def shouldCheckpoint (cfg : Config) (roundNum : Nat) : Bool :=
  roundNum % cfg.roundsPerCheckpoint == 0 || roundNum + 1 == cfg.totalRounds

/-- Lines 185 to 236: one iteration of the `while round_num < total_rounds`
body. `client_datasets_fn` is called first; if `next` raises one of the three
caught transient faults the executor stack is rebuilt and the loop continues
with nothing else changed; any other exception propagates. On success the
state is replaced, the train metrics are built (possibly raising `KeyError`),
the checkpoint condition and the eval condition are applied, and the round
number is incremented. The metrics writer's type checks always pass here
(both metrics are dicts and the round number an int), so its error position
is threaded but never taken. -/
def loopBody {S D : Type} (cfg : Config) (P : Process S D)
    (cdf : Nat → D × List String) (evalFn : S → Bool → Dict)
    (l2 : S → S → Nat) (intr : Option Interrupt) (t : Timings)
    (ls : LoopState S) : Except PyError (LoopState S) :=
  match intr with
  | some (.fault _) =>
    -- tff.framework.set_default_executor(); continue
    .ok { ls with executorRebuilds := ls.executorRebuilds + 1 }
  | some (.exc e) => .error e
  | none =>
    let res := P.next ls.state (cdf ls.roundNum).1
    let uc := ls.uniqueClients ∪ ((cdf ls.roundNum).2).toFinset
    match buildTrainMetrics (l2 res.state ls.state) uc.card res.metrics t with
    | .error e => .error e
    | .ok tm =>
      let doCkpt := shouldCheckpoint cfg ls.roundNum
      let ckpts :=
        if doCkpt then ls.checkpoints ++ [(ls.roundNum, res.state)]
        else ls.checkpoints
      let tm2 :=
        if doCkpt then dinsert tm "save_checkpoint_secs" (.meas t.ckpt)
        else tm
      if ls.roundNum % cfg.roundsPerEval = 0 then
        let em := dinsert (evalFn res.state false) "evaluate_secs" (.meas t.eval)
        match write_metrics (.dict tm2) (.dict em) (.int ls.roundNum) ls.sinks with
        | (_, some e) => .error e
        | (s2, none) =>
          .ok { state := res.state, roundNum := ls.roundNum + 1,
                uniqueClients := uc, executorRebuilds := ls.executorRebuilds,
                checkpoints := ckpts, sinks := s2 }
      else
        .ok { state := res.state, roundNum := ls.roundNum + 1,
              uniqueClients := uc, executorRebuilds := ls.executorRebuilds,
              checkpoints := ckpts, sinks := ls.sinks }

/-- The successful-round state transformer: the `LoopState` left behind by
one iteration whose `next` call returned normally and whose train metrics
came out as `tm` from `buildTrainMetrics`. `loopBody` is proved equal to
`.ok` of this whenever the metrics build succeeds. -/
def stepOk {S D : Type} (cfg : Config) (P : Process S D)
    (cdf : Nat → D × List String) (evalFn : S → Bool → Dict) (t : Timings)
    (tm : Dict) (ls : LoopState S) : LoopState S :=
  let res := P.next ls.state (cdf ls.roundNum).1
  let uc := ls.uniqueClients ∪ ((cdf ls.roundNum).2).toFinset
  let doCkpt := shouldCheckpoint cfg ls.roundNum
  let tm2 :=
    if doCkpt then dinsert tm "save_checkpoint_secs" (.meas t.ckpt) else tm
  { state := res.state
    roundNum := ls.roundNum + 1
    uniqueClients := uc
    executorRebuilds := ls.executorRebuilds
    checkpoints :=
      if doCkpt then ls.checkpoints ++ [(ls.roundNum, res.state)]
      else ls.checkpoints
    sinks :=
      if ls.roundNum % cfg.roundsPerEval = 0 then
        (write_metrics (.dict tm2)
          (.dict (dinsert (evalFn res.state false) "evaluate_secs" (.meas t.eval)))
          (.int ls.roundNum) ls.sinks).1
      else ls.sinks }

/-- The `while round_num < total_rounds` loop, driven by a fault-injection
schedule (`intr tick` is the outcome of the call to `next` made at global
attempt number `tick`) and a fuel bound standing in for nontermination:
`none` means the fuel ran out with the loop still going. -/
def runLoop {S D : Type} (cfg : Config) (P : Process S D)
    (cdf : Nat → D × List String) (evalFn : S → Bool → Dict)
    (l2 : S → S → Nat) (intr : Nat → Option Interrupt)
    (tms : Nat → Timings) :
    Nat → Nat → LoopState S → Option (Except PyError (LoopState S × Nat))
  | 0, tick, ls =>
    if ls.roundNum < cfg.totalRounds then none else some (.ok (ls, tick))
  | fuel + 1, tick, ls =>
    if ls.roundNum < cfg.totalRounds then
      match loopBody cfg P cdf evalFn l2 (intr tick) (tms tick) ls with
      | .error e => some (.error e)
      | .ok ls2 => runLoop cfg P cdf evalFn l2 intr tms fuel (tick + 1) ls2
    else some (.ok (ls, tick))

/-- One scan step of the latest-checkpoint search: keep whichever of the
candidate so far and the next entry has the higher round number. -/
def latestStep {S : Type} (acc : Option (S × Nat)) (e : Nat × S) :
    Option (S × Nat) :=
  match acc with
  | none => some (e.2, e.1)
  | some (s, r) => if r < e.1 then some (e.2, e.1) else some (s, r)

/-- Modelled from the spec: `FileCheckpointManager.load_latest_checkpoint`
(the `checkpoint_manager` module is not among the supplied sources; spec
section 4.1). Scans the store and returns the state and round number of the
checkpoint with the highest round number, or `none` on an empty store, the
normal cold-start path. -/
def loadLatest {S : Type} (store : List (Nat × S)) : Option (S × Nat) :=
  store.foldl latestStep none

/-- Lines 170 to 179 of `run`: ask the checkpoint manager for the latest
checkpoint; on `None` start from the initial state at round 0, otherwise
resume from the loaded state with the round counter incremented past the
loaded round. -/
def initResume {S : Type} (initialState : S) (store : List (Nat × S)) :
    S × Nat :=
  match loadLatest store with
  | none => (initialState, 0)
  | some (s, r) => (s, r + 1)

/-- Lines 238 to 243: after the loop exits, evaluate on the test dataset and
write a final metrics record with an empty train dict, keyed by
`total_rounds`. Returns the final state (line 245) and the state record. -/
def finalizeRun {S : Type} (cfg : Config) (evalFn : S → Bool → Dict)
    (tEval : Nat) (ls : LoopState S) : Except PyError (S × LoopState S) :=
  let testMetrics := dinsert (evalFn ls.state true) "evaluate_secs" (.meas tEval)
  match write_metrics (.dict []) (.dict testMetrics) (.int cfg.totalRounds)
      ls.sinks with
  | (_, some e) => .error e
  | (s2, none) => .ok (ls.state, { ls with sinks := s2 })

/-- `run` (lines 126 to 245), relative to an existing checkpoint store and
existing metric sinks: resume or cold-start, drive the loop, run the final
test evaluation, and return the final state together with the checkpoint
store and sinks left behind. -/
def run {S D : Type} (cfg : Config) (P : Process S D)
    (cdf : Nat → D × List String) (evalFn : S → Bool → Dict)
    (l2 : S → S → Nat) (intr : Nat → Option Interrupt) (tms : Nat → Timings)
    (fuel : Nat) (store : List (Nat × S)) (sinks0 : Sinks) :
    Option (Except PyError (S × List (Nat × S) × Sinks)) :=
  let sr := initResume P.initial store
  let ls0 : LoopState S :=
    ⟨sr.1, sr.2, ∅, 0, store, sinks0⟩
  match runLoop cfg P cdf evalFn l2 intr tms fuel 0 ls0 with
  | none => none
  | some (.error e) => some (.error e)
  | some (.ok (ls, tick)) =>
    match finalizeRun cfg evalFn (tms tick).eval ls with
    | .error e => some (.error e)
    | .ok (s, ls2) => some (.ok (s, ls2.checkpoints, ls2.sinks))

/-- The union of the client-id sets returned by `client_datasets_fn` for
rounds `0, ..., n - 1`: the spec-side value the cumulative unique-client
metric is compared against. -/
def clientsUpTo {D : Type} (cdf : Nat → D × List String) (n : Nat) :
    Finset String :=
  (List.range n).foldl (fun acc i => acc ∪ ((cdf i).2).toFinset) ∅

/-- Keys of a dict are pairwise distinct (Python dict invariant). -/
def keysND (d : Dict) : Prop := (d.map Prod.fst).Nodup

/-- The invariant a fault-free fresh run maintains across loop iterations:
the unique-client set is exactly the union over the executed rounds, the
checkpointed rounds are exactly those passing the checkpoint condition so
far and all lie below the round counter, and every table row was written at
a round below the counter with the cumulative client count as its
`num_unique_clients` train metric, the table never being longer than the
round counter. -/
def SuccessInv {S D : Type} (cfg : Config) (cdf : Nat → D × List String)
    (ls : LoopState S) : Prop :=
  ls.uniqueClients = clientsUpTo cdf ls.roundNum ∧
  ls.checkpoints.map Prod.fst
    = (List.range ls.roundNum).filter (fun r => shouldCheckpoint cfg r) ∧
  (∀ p ∈ ls.checkpoints, p.1 < ls.roundNum) ∧
  (∀ t, ls.sinks.table = some t →
    t.length ≤ ls.roundNum ∧
    ∀ row ∈ t, row.round < ls.roundNum ∧
      dget row.train "num_unique_clients"
        = some (.nat (clientsUpTo cdf (row.round + 1)).card))

/-- Decidable equality on `Except`, so concrete loop-body results can be
checked by evaluation. -/
instance exceptDecEq {E A : Type} [DecidableEq E] [DecidableEq A] :
    DecidableEq (Except E A)
  | .error a, .error b =>
    if h : a = b then .isTrue (by rw [h]) else .isFalse (by simp [h])
  | .error _, .ok _ => .isFalse (by simp)
  | .ok _, .error _ => .isFalse (by simp)
  | .ok a, .ok b =>
    if h : a = b then .isTrue (by rw [h]) else .isFalse (by simp [h])

/-- Collaborator fixture over trivial state whose round metrics hold the
popped timing key, for evaluating the loop at concrete inputs. -/
def procUnit : Process Unit Unit :=
  ⟨(), fun _ _ => ⟨(), [(kerasKey, MVal.meas 0)]⟩⟩

/-- Collaborator fixture whose round metrics are empty, so the
unconditional pop raises `KeyError`. -/
def procNoKeras : Process Unit Unit := ⟨(), fun _ _ => ⟨(), []⟩⟩

/-- Dataset fixture sampling the single client id a each round. -/
def cdfA : Nat → Unit × List String := fun _ => ((), ["a"])

/-- Dataset fixture with client-id sets a b, then b c, then a d. -/
def cdfSets : Nat → Unit × List String :=
  fun n =>
    ((), if n = 0 then ["a", "b"] else if n = 1 then ["b", "c"] else ["a", "d"])

/-- Evaluation fixture returning no metrics. -/
def evalZero : Unit → Bool → Dict := fun _ _ => []

/-- Model-delta fixture. -/
def l2Zero : Unit → Unit → Nat := fun _ _ => 0

/-- Timing fixture. -/
def tZero : Timings := ⟨0, 0, 0, 0⟩

/-- Timing schedule fixture. -/
def tmsZero : Nat → Timings := fun _ => tZero

/-- Fault-free injection schedule. -/
def intrNone : Nat → Option Interrupt := fun _ => none

/-- A cold-start loop state over trivial server state. -/
def lsStart : LoopState Unit := ⟨(), 0, ∅, 0, [], ⟨[], none⟩⟩

/-! ## Dict lemmas -/

theorem dget_dinsert (d : Dict) (k k' : String) (v : MVal) :
    dget (dinsert d k v) k' = if k' = k then some v else dget d k' := by
  induction d with
  | nil => simp [dinsert, dget, eq_comm]
  | cons p t ih =>
    by_cases h1 : p.1 = k
    · by_cases h2 : k' = k
      · simp [dinsert, dget, h1, h2]
      · have hkk : ¬ k = k' := fun hh => h2 hh.symm
        simp [dinsert, dget, h1, h2, hkk]
    · by_cases h2 : p.1 = k' <;> by_cases h3 : k' = k <;>
        simp_all [dinsert, dget]

theorem dget_eq_none_iff (d : Dict) (k : String) :
    dget d k = none ↔ k ∉ d.map Prod.fst := by
  induction d with
  | nil => simp [dget]
  | cons p t ih =>
    by_cases h : p.1 = k <;> simp_all [dget, eq_comm]

theorem dget_dupdate_none (o : Dict) (d : Dict) (k : String) :
    dget (dupdate d o) k = none ↔ dget d k = none ∧ dget o k = none := by
  induction o generalizing d with
  | nil => simp [dupdate, dget]
  | cons q t ih =>
    show dget (dupdate (dinsert d q.1 q.2) t) k = none ↔ _
    rw [ih]
    by_cases h : q.1 = k
    · simp [dget_dinsert, dget, h]
    · have h' : ¬ k = q.1 := fun hh => h hh.symm
      simp [dget_dinsert, dget, h, h']

theorem dget_dupdate_of_none (o : Dict) (d : Dict) (k : String)
    (h : dget o k = none) : dget (dupdate d o) k = dget d k := by
  induction o generalizing d with
  | nil => simp [dupdate]
  | cons q t ih =>
    show dget (dupdate (dinsert d q.1 q.2) t) k = dget d k
    have hq : ¬ q.1 = k := by
      intro hk
      simp [dget, hk] at h
    have ht : dget t k = none := by
      simpa [dget, hq] using h
    rw [ih _ ht, dget_dinsert]
    have h' : ¬ k = q.1 := fun hh => hq hh.symm
    rw [if_neg h']

theorem keys_dinsert (d : Dict) (k : String) (v : MVal) :
    (dinsert d k v).map Prod.fst
      = if dget d k = none then d.map Prod.fst ++ [k] else d.map Prod.fst := by
  induction d with
  | nil => simp [dinsert, dget]
  | cons p t ih =>
    by_cases h : p.1 = k
    · simp [dinsert, dget, h]
    · simp only [dinsert, dget, if_neg h, List.map_cons, ih]
      split <;> simp

theorem keysND_dinsert {d : Dict} (k : String) (v : MVal) (h : keysND d) :
    keysND (dinsert d k v) := by
  unfold keysND at h ⊢
  rw [keys_dinsert]
  split
  · rename_i hnone
    rw [dget_eq_none_iff] at hnone
    simp [List.nodup_append, h, hnone]
  · exact h

theorem keysND_dupdate (o : Dict) {d : Dict} (h : keysND d) :
    keysND (dupdate d o) := by
  induction o generalizing d with
  | nil => exact h
  | cons q t ih => exact ih (keysND_dinsert q.1 q.2 h)

theorem dpop_error_of_none (d : Dict) (k : String) (h : dget d k = none) :
    dpop d k = .error .keyError := by
  induction d with
  | nil => rfl
  | cons p t ih =>
    by_cases hp : p.1 = k
    · simp [dget, hp] at h
    · have ht : dget t k = none := by simpa [dget, hp] using h
      simp [dpop, hp, ih ht, Except.map]

theorem dpop_ok_spec (d : Dict) (k : String) (h : dget d k ≠ none) :
    ∃ d', dpop d k = .ok d' ∧ (keysND d → dget d' k = none) ∧
      ∀ k', k' ≠ k → dget d' k' = dget d k' := by
  induction d with
  | nil => simp [dget] at h
  | cons p t ih =>
    by_cases hp : p.1 = k
    · refine ⟨t, by simp [dpop, hp], ?_, ?_⟩
      · intro hnd
        unfold keysND at hnd
        rw [List.map_cons, List.nodup_cons] at hnd
        rw [dget_eq_none_iff]
        exact hp ▸ hnd.1
      · intro k' hk'
        have hkk : ¬ k = k' := fun hh => hk' hh.symm
        simp [dget, hp, hkk]
    · have ht : dget t k ≠ none := by simpa [dget, hp] using h
      obtain ⟨t', ht', hnone, hother⟩ := ih ht
      refine ⟨p :: t', by simp [dpop, hp, ht', Except.map], ?_, ?_⟩
      · intro hnd
        unfold keysND at hnd
        rw [List.map_cons, List.nodup_cons] at hnd
        simp [dget, hp, hnone hnd.2]
      · intro k' hk'
        by_cases hpk : p.1 = k' <;> simp [dget, hpk, hother k' hk']

/-! ## Metrics-writer lemmas -/

theorem write_metrics_snd (tm em : Dict) (rn : Nat) (s : Sinks) :
    (write_metrics (.dict tm) (.dict em) (.int rn) s).2 = none := rfl

theorem write_metrics_table_some (tm em : Dict) (rn : Nat) (s : Sinks)
    (t : List Row) (h : s.table = some t) :
    (write_metrics (.dict tm) (.dict em) (.int rn) s).1.table
      = some (t.take rn ++ [⟨rn, tm, em⟩]) := by
  simp [write_metrics, h]

theorem write_metrics_table_none (tm em : Dict) (rn : Nat) (s : Sinks)
    (h : s.table = none) :
    (write_metrics (.dict tm) (.dict em) (.int rn) s).1.table
      = some [⟨rn, tm, em⟩] := by
  simp [write_metrics, h]

theorem write_metrics_summary (tm em : Dict) (rn : Nat) (s : Sinks) :
    (write_metrics (.dict tm) (.dict em) (.int rn) s).1.summary
      = s.summary ++ (flattenMetrics tm em rn).map (fun p => (p.1, p.2, rn)) :=
  rfl

/-- Rows whose stored round number equals their position are exactly the
setting in which positional truncation agrees with round-keyed filtering. -/
theorem take_eq_filter_of_rounds (n : Nat) :
    ∀ (k : Nat) (t : List Row), t.map Row.round = List.range' k t.length →
      t.filter (fun r => r.round < n) = t.take (n - k) := by
  intro k t
  induction t generalizing k with
  | nil => simp
  | cons r rest ih =>
    intro h
    rw [List.length_cons, List.range'_succ, List.map_cons, List.cons.injEq] at h
    obtain ⟨hr, hrest⟩ := h
    by_cases hk : k < n
    · have hn : n - k = (n - (k + 1)) + 1 := by omega
      rw [hn]
      simp only [List.take_succ_cons, List.filter_cons]
      rw [ih (k + 1) hrest]
      simp [hr, hk]
    · have hn : n - k = 0 := by omega
      have hn1 : n - (k + 1) = 0 := by omega
      rw [hn]
      simp only [List.take_zero, List.filter_cons]
      have := ih (k + 1) hrest
      rw [hn1, List.take_zero] at this
      simp [hr, hk, this]

/-! ## Train-metrics build lemmas -/

theorem dget_preMetrics_keras (l2v nu : Nat) (t : Timings) :
    dget (preMetrics l2v nu t) kerasKey = none := by
  simp [preMetrics, dget_dinsert, dget, kerasKey]

theorem dget_preMetrics_unique (l2v nu : Nat) (t : Timings) :
    dget (preMetrics l2v nu t) "num_unique_clients" = some (.nat nu) := by
  simp [preMetrics, dget_dinsert]

theorem keysND_preMetrics (l2v nu : Nat) (t : Timings) :
    keysND (preMetrics l2v nu t) := by
  unfold preMetrics
  apply keysND_dinsert
  apply keysND_dinsert
  apply keysND_dinsert
  simp [keysND]

theorem buildTrainMetrics_error (l2v nu : Nat) (rm : Dict) (t : Timings)
    (h : dget rm kerasKey = none) :
    buildTrainMetrics l2v nu rm t = .error .keyError := by
  unfold buildTrainMetrics
  apply dpop_error_of_none
  rw [dget_dupdate_none]
  exact ⟨dget_preMetrics_keras l2v nu t, h⟩

theorem buildTrainMetrics_ok_spec (l2v nu : Nat) (rm : Dict) (t : Timings)
    (h : dget rm kerasKey ≠ none) :
    ∃ tm, buildTrainMetrics l2v nu rm t = .ok tm ∧
      dget tm kerasKey = none ∧
      (dget rm "num_unique_clients" = none →
        dget tm "num_unique_clients" = some (.nat nu)) := by
  have hnd : keysND (dupdate (preMetrics l2v nu t) rm) :=
    keysND_dupdate rm (keysND_preMetrics l2v nu t)
  have hget : dget (dupdate (preMetrics l2v nu t) rm) kerasKey ≠ none := by
    rw [Ne, dget_dupdate_none]
    intro hc
    exact h hc.2
  obtain ⟨tm, htm, hkn, hoth⟩ :=
    dpop_ok_spec (dupdate (preMetrics l2v nu t) rm) kerasKey hget
  refine ⟨tm, htm, hkn hnd, ?_⟩
  intro hrm
  rw [hoth "num_unique_clients" (by decide), dget_dupdate_of_none rm _ _ hrm]
  exact dget_preMetrics_unique l2v nu t

/-! ## Loop-body lemmas -/

theorem loopBody_fault {S D : Type} (cfg : Config) (P : Process S D)
    (cdf : Nat → D × List String) (evalFn : S → Bool → Dict)
    (l2 : S → S → Nat) (f : Fault) (t : Timings) (ls : LoopState S) :
    loopBody cfg P cdf evalFn l2 (some (.fault f)) t ls
      = .ok { ls with executorRebuilds := ls.executorRebuilds + 1 } := rfl

theorem loopBody_exc {S D : Type} (cfg : Config) (P : Process S D)
    (cdf : Nat → D × List String) (evalFn : S → Bool → Dict)
    (l2 : S → S → Nat) (e : PyError) (t : Timings) (ls : LoopState S) :
    loopBody cfg P cdf evalFn l2 (some (.exc e)) t ls = .error e := rfl

theorem loopBody_none_error {S D : Type} (cfg : Config) (P : Process S D)
    (cdf : Nat → D × List String) (evalFn : S → Bool → Dict)
    (l2 : S → S → Nat) (t : Timings) (ls : LoopState S) (e : PyError)
    (hb : buildTrainMetrics
        (l2 (P.next ls.state (cdf ls.roundNum).1).state ls.state)
        (ls.uniqueClients ∪ ((cdf ls.roundNum).2).toFinset).card
        (P.next ls.state (cdf ls.roundNum).1).metrics t = .error e) :
    loopBody cfg P cdf evalFn l2 none t ls = .error e := by
  simp only [loopBody, hb]

theorem loopBody_none_ok {S D : Type} (cfg : Config) (P : Process S D)
    (cdf : Nat → D × List String) (evalFn : S → Bool → Dict)
    (l2 : S → S → Nat) (t : Timings) (ls : LoopState S) (tm : Dict)
    (hb : buildTrainMetrics
        (l2 (P.next ls.state (cdf ls.roundNum).1).state ls.state)
        (ls.uniqueClients ∪ ((cdf ls.roundNum).2).toFinset).card
        (P.next ls.state (cdf ls.roundNum).1).metrics t = .ok tm) :
    loopBody cfg P cdf evalFn l2 none t ls
      = .ok (stepOk cfg P cdf evalFn t tm ls) := by
  simp only [loopBody, hb]
  by_cases hEv : ls.roundNum % cfg.roundsPerEval = 0 <;>
    simp [stepOk, write_metrics, hEv]

/-! ## Claim C5 -/

/-- C5: for every call to the metrics writer where the train metrics
argument is not a mapping, or the eval metrics argument is not a mapping, or
the round number is not an integer, a type error is raised before any write
occurs and both the streaming sink and the metrics table are returned
unchanged. -/
theorem write_metrics_rejects_malformed (trainArg evalArg : MetricsArg)
    (roundArg : RoundArg) (s : Sinks)
    (h : trainArg = .nonDict ∨ evalArg = .nonDict ∨ roundArg = .nonInt) :
    write_metrics trainArg evalArg roundArg s = (s, some .typeError) := by
  cases trainArg <;> cases evalArg <;> cases roundArg <;>
    simp_all [write_metrics]

theorem write_metrics_rejects_malformed_witness :
    write_metrics .nonDict (.dict []) (.int 0) ⟨[], none⟩
      = (⟨[], none⟩, some .typeError) :=
  write_metrics_rejects_malformed .nonDict (.dict []) (.int 0) ⟨[], none⟩
    (Or.inl rfl)

/-! ## Claim C1 -/

/-- C1 (counterexample): the claim that every row with round number at least
`round_num` is removed before the new row is appended fails: on a table whose
rows carry round numbers 0 and 2, writing round 2 truncates positionally
(`metrics[:2]` keeps both rows) and then appends, leaving two rows with round
number 2 instead of exactly one. -/
theorem write_metrics_truncation_cex :
    (write_metrics (.dict []) (.dict []) (.int 2)
        ⟨[], some [⟨0, [], []⟩, ⟨2, [], []⟩]⟩).1.table
      = some [⟨0, [], []⟩, ⟨2, [], []⟩, ⟨2, [], []⟩] ∧
    (((write_metrics (.dict []) (.dict []) (.int 2)
        ⟨[], some [⟨0, [], []⟩, ⟨2, [], []⟩]⟩).1.table).getD []).countP
      (fun r => r.round == 2) = 2 := by
  constructor
  · rfl
  · decide

/-- C1 (amended): the writer truncates an existing table to its first
`round_num` rows positionally and then appends the new row; whenever row `i`
of the existing table carries round number `i` — as holds when a row was
written for every round in order, the `rounds_per_eval = 1` default — the
truncation removes exactly the rows with round number at least `round_num`,
so re-writing a retried or resumed round is idempotent there. -/
theorem write_metrics_truncation_aligned (tm em : Dict) (rn : Nat)
    (s : Sinks) (t : List Row) (ht : s.table = some t)
    (halign : t.map Row.round = List.range t.length) :
    (write_metrics (.dict tm) (.dict em) (.int rn) s).1.table
      = some (t.filter (fun r => r.round < rn) ++ [⟨rn, tm, em⟩]) := by
  have hf := take_eq_filter_of_rounds rn 0 t
    (by simpa [List.range_eq_range'] using halign)
  rw [Nat.sub_zero] at hf
  rw [write_metrics_table_some tm em rn s t ht, ← hf]

theorem write_metrics_truncation_aligned_witness :
    (write_metrics (.dict []) (.dict []) (.int 1)
        ⟨[], some [⟨0, [], []⟩, ⟨1, [], []⟩]⟩).1.table
      = some ([⟨0, [], []⟩, ⟨1, [], []⟩].filter (fun r => r.round < 1)
          ++ [⟨1, [], []⟩]) :=
  write_metrics_truncation_aligned [] [] 1
    ⟨[], some [⟨0, [], []⟩, ⟨1, [], []⟩]⟩ [⟨0, [], []⟩, ⟨1, [], []⟩]
    rfl (by decide)

/-! ## Latest-checkpoint lemmas -/

theorem latestStep_foldl_le {S : Type} :
    ∀ (l : List (Nat × S)) (acc : Option (S × Nat)) (s : S) (r : Nat),
      l.foldl latestStep acc = some (s, r) →
      (∀ p ∈ l, p.1 ≤ r) ∧ (∀ s0 r0, acc = some (s0, r0) → r0 ≤ r) := by
  intro l
  induction l with
  | nil =>
    intro acc s r h
    refine ⟨by simp, ?_⟩
    intro s0 r0 h0
    rw [h0] at h
    simp only [List.foldl_nil, Option.some.injEq, Prod.mk.injEq] at h
    omega
  | cons e t ih =>
    intro acc s r h
    rw [List.foldl_cons] at h
    obtain ⟨h1, h2⟩ := ih (latestStep acc e) s r h
    constructor
    · intro p hp
      rcases List.mem_cons.mp hp with rfl | hmem
      · cases acc with
        | none => exact h2 p.2 p.1 rfl
        | some x =>
          obtain ⟨s0, r0⟩ := x
          by_cases hlt : r0 < p.1
          · exact h2 p.2 p.1 (by simp [latestStep, hlt])
          · have := h2 s0 r0 (by simp [latestStep, hlt])
            omega
      · exact h1 p hmem
    · intro s0 r0 h0
      subst h0
      by_cases hlt : r0 < e.1
      · have := h2 e.2 e.1 (by simp [latestStep, hlt])
        omega
      · exact h2 s0 r0 (by simp [latestStep, hlt])

theorem latestStep_foldl_mem {S : Type} :
    ∀ (l : List (Nat × S)) (acc : Option (S × Nat)) (s : S) (r : Nat),
      l.foldl latestStep acc = some (s, r) →
      acc = some (s, r) ∨ (r, s) ∈ l := by
  intro l
  induction l with
  | nil =>
    intro acc s r h
    exact Or.inl h
  | cons e t ih =>
    intro acc s r h
    rw [List.foldl_cons] at h
    rcases ih (latestStep acc e) s r h with hacc | hmem
    · cases acc with
      | none =>
        simp only [latestStep, Option.some.injEq, Prod.mk.injEq] at hacc
        right
        rw [← hacc.1, ← hacc.2]
        simp
      | some x =>
        obtain ⟨s0, r0⟩ := x
        by_cases hlt : r0 < e.1 <;>
          simp only [latestStep, hlt, if_pos, if_neg, ite_true, ite_false,
            Option.some.injEq, Prod.mk.injEq] at hacc
        · right
          rw [← hacc.1, ← hacc.2]
          simp
        · left
          rw [hacc.1, hacc.2]
    · exact Or.inr (List.mem_cons_of_mem e hmem)

theorem loadLatest_le {S : Type} (store : List (Nat × S)) (s : S) (r : Nat)
    (h : loadLatest store = some (s, r)) : ∀ p ∈ store, p.1 ≤ r :=
  (latestStep_foldl_le store none s r h).1

theorem loadLatest_append_lt {S : Type} (l : List (Nat × S)) (r0 : Nat)
    (s0 : S) (h : ∀ p ∈ l, p.1 < r0) :
    loadLatest (l ++ [(r0, s0)]) = some (s0, r0) := by
  unfold loadLatest
  rw [List.foldl_append]
  cases hl : l.foldl latestStep none with
  | none => rfl
  | some x =>
    obtain ⟨s1, r1⟩ := x
    have hmem := latestStep_foldl_mem l none s1 r1 hl
    rcases hmem with hc | hmem
    · cases hc
    · have : r1 < r0 := h (r1, s1) hmem
      simp [latestStep, this]

/-! ## Claim C3 -/

/-- C3: at startup, an empty checkpoint store yields the initial state at
round 0; otherwise the loop resumes with the loaded state and the loaded
round number plus one, which is strictly beyond every round number present
in the store, so no durably checkpointed round is re-executed. -/
theorem startup_resume {S : Type} (initialState : S) :
    initResume initialState ([] : List (Nat × S)) = (initialState, 0) ∧
    ∀ (store : List (Nat × S)) (s : S) (r : Nat),
      loadLatest store = some (s, r) →
        initResume initialState store = (s, r + 1) ∧
        ∀ p ∈ store, p.1 < r + 1 := by
  refine ⟨rfl, ?_⟩
  intro store s r h
  refine ⟨by simp [initResume, h], ?_⟩
  intro p hp
  exact Nat.lt_succ_of_le (loadLatest_le store s r h p hp)

theorem startup_resume_witness :
    initResume "init" [(3, "a"), (7, "b"), (5, "c")] = ("b", 8) ∧
    initResume "init" ([] : List (Nat × String)) = ("init", 0) :=
  ⟨((startup_resume "init").2 [(3, "a"), (7, "b"), (5, "c")] "b" 7 rfl).1,
   (startup_resume "init").1⟩

/-! ## Claim C2 -/

theorem runLoop_fault_spin {S D : Type} (cfg : Config) (P : Process S D)
    (cdf : Nat → D × List String) (evalFn : S → Bool → Dict)
    (l2 : S → S → Nat) (tms : Nat → Timings) (f : Fault) :
    ∀ (k tick : Nat) (ls : LoopState S), ls.roundNum < cfg.totalRounds →
      runLoop cfg P cdf evalFn l2 (fun _ => some (.fault f)) tms k tick ls
        = none := by
  intro k
  induction k with
  | zero =>
    intro tick ls h
    simp [runLoop, h]
  | succ n ih =>
    intro tick ls h
    simp only [runLoop, if_pos h, loopBody_fault]
    exact ih (tick + 1) _ h

/-- C2: when the round-compute call raises one of the three caught transient
fault kinds, the executor stack is rebuilt and the loop continues with the
round number, the state, the client set, the checkpoints and the sinks all
unchanged, and no error surfaced; moreover under a schedule that faults on
every attempt, any finite number of iterations leaves the loop still
retrying the same round — there is no retry cap and the fault never reaches
the caller. -/
theorem transient_fault_retry {S D : Type} (cfg : Config) (P : Process S D)
    (cdf : Nat → D × List String) (evalFn : S → Bool → Dict)
    (l2 : S → S → Nat) (tms : Nat → Timings) (f : Fault) (t : Timings)
    (ls : LoopState S) :
    loopBody cfg P cdf evalFn l2 (some (.fault f)) t ls
      = .ok { ls with executorRebuilds := ls.executorRebuilds + 1 } ∧
    (ls.roundNum < cfg.totalRounds → ∀ k tick,
      runLoop cfg P cdf evalFn l2 (fun _ => some (.fault f)) tms k tick ls
        = none) :=
  ⟨loopBody_fault cfg P cdf evalFn l2 f t ls,
   fun h k tick => runLoop_fault_spin cfg P cdf evalFn l2 tms f k tick ls h⟩

theorem transient_fault_retry_witness :
    loopBody ⟨1, 1, 1⟩ procUnit cdfA evalZero l2Zero
        (some (.fault .internal)) tZero lsStart
      = .ok ⟨(), 0, ∅, 1, [], ⟨[], none⟩⟩ ∧
    runLoop ⟨1, 1, 1⟩ procUnit cdfA evalZero l2Zero
        (fun _ => some (.fault .internal)) tmsZero 5 0 lsStart = none :=
  ⟨(transient_fault_retry ⟨1, 1, 1⟩ procUnit cdfA evalZero l2Zero tmsZero
      .internal tZero lsStart).1,
   (transient_fault_retry ⟨1, 1, 1⟩ procUnit cdfA evalZero l2Zero tmsZero
      .internal tZero lsStart).2 (by decide) 5 0⟩

/-! ## Claim C9 -/

/-- C9: one successful round unconditionally pops
`keras_training_time_client_sum_sec` from the accumulated train metrics
before persisting them: when the round metrics lack the key the iteration
raises `KeyError` (fatal, since only the three transient fault kinds are
caught), and when they carry it the popped dict no longer contains the key
and the iteration completes with it. -/
theorem keras_key_pop {S D : Type} (cfg : Config) (P : Process S D)
    (cdf : Nat → D × List String) (evalFn : S → Bool → Dict)
    (l2 : S → S → Nat) (t : Timings) (ls : LoopState S) :
    (dget (P.next ls.state (cdf ls.roundNum).1).metrics kerasKey = none →
      loopBody cfg P cdf evalFn l2 none t ls = .error .keyError) ∧
    (dget (P.next ls.state (cdf ls.roundNum).1).metrics kerasKey ≠ none →
      ∃ tm, buildTrainMetrics
          (l2 (P.next ls.state (cdf ls.roundNum).1).state ls.state)
          (ls.uniqueClients ∪ ((cdf ls.roundNum).2).toFinset).card
          (P.next ls.state (cdf ls.roundNum).1).metrics t = .ok tm ∧
        dget tm kerasKey = none ∧
        loopBody cfg P cdf evalFn l2 none t ls
          = .ok (stepOk cfg P cdf evalFn t tm ls)) := by
  constructor
  · intro h
    exact loopBody_none_error cfg P cdf evalFn l2 t ls .keyError
      (buildTrainMetrics_error _ _ _ _ h)
  · intro h
    obtain ⟨tm, htm, hk, _⟩ := buildTrainMetrics_ok_spec _ _ _ _ h
    exact ⟨tm, htm, hk, loopBody_none_ok cfg P cdf evalFn l2 t ls tm htm⟩

theorem keras_key_pop_witness :
    loopBody ⟨5, 2, 2⟩ procNoKeras cdfA evalZero l2Zero none tZero lsStart
      = .error .keyError :=
  (keras_key_pop ⟨5, 2, 2⟩ procNoKeras cdfA evalZero l2Zero tZero
    lsStart).1 (by decide)

/-! ## Claim C10 -/

/-- C10: client ids sampled during an attempt that ends in a transient
backend fault are never added to the cumulative unique-client set — a
faulted iteration leaves the set untouched — while a successful iteration
replaces the set by its union with the ids sampled for that round, so the
count reflects only the successful attempt of each round. -/
theorem unique_clients_only_on_success {S D : Type} (cfg : Config)
    (P : Process S D) (cdf : Nat → D × List String)
    (evalFn : S → Bool → Dict) (l2 : S → S → Nat) (t : Timings)
    (ls : LoopState S) :
    (∀ f : Fault, ∃ ls2,
      loopBody cfg P cdf evalFn l2 (some (.fault f)) t ls = .ok ls2 ∧
      ls2.uniqueClients = ls.uniqueClients) ∧
    (∀ ls2, loopBody cfg P cdf evalFn l2 none t ls = .ok ls2 →
      ls2.uniqueClients
        = ls.uniqueClients ∪ ((cdf ls.roundNum).2).toFinset) := by
  constructor
  · intro f
    exact ⟨_, loopBody_fault cfg P cdf evalFn l2 f t ls, rfl⟩
  · intro ls2 h
    cases hb : buildTrainMetrics
        (l2 (P.next ls.state (cdf ls.roundNum).1).state ls.state)
        (ls.uniqueClients ∪ ((cdf ls.roundNum).2).toFinset).card
        (P.next ls.state (cdf ls.roundNum).1).metrics t with
    | error e =>
      rw [loopBody_none_error cfg P cdf evalFn l2 t ls e hb] at h
      cases h
    | ok tm =>
      rw [loopBody_none_ok cfg P cdf evalFn l2 t ls tm hb] at h
      cases h
      rfl

theorem unique_clients_only_on_success_witness :
    (⟨(), 2, {"a"}, 0, [], ⟨[], none⟩⟩ : LoopState Unit).uniqueClients
      = (⟨(), 1, ∅, 0, [], ⟨[], none⟩⟩ : LoopState Unit).uniqueClients
        ∪ ((cdfA 1).2).toFinset :=
  (unique_clients_only_on_success ⟨5, 2, 2⟩ procUnit cdfA evalZero l2Zero
    tZero ⟨(), 1, ∅, 0, [], ⟨[], none⟩⟩).2
    ⟨(), 2, {"a"}, 0, [], ⟨[], none⟩⟩ (by decide)

/-! ## Success-run invariant machinery -/

theorem clientsUpTo_succ {D : Type} (cdf : Nat → D × List String) (n : Nat) :
    clientsUpTo cdf (n + 1) = clientsUpTo cdf n ∪ ((cdf n).2).toFinset := by
  unfold clientsUpTo
  rw [List.range_succ, List.foldl_append]
  rfl

theorem stepOk_roundNum {S D : Type} (cfg : Config) (P : Process S D)
    (cdf : Nat → D × List String) (evalFn : S → Bool → Dict) (t : Timings)
    (tm : Dict) (ls : LoopState S) :
    (stepOk cfg P cdf evalFn t tm ls).roundNum = ls.roundNum + 1 := rfl

theorem stepOk_state {S D : Type} (cfg : Config) (P : Process S D)
    (cdf : Nat → D × List String) (evalFn : S → Bool → Dict) (t : Timings)
    (tm : Dict) (ls : LoopState S) :
    (stepOk cfg P cdf evalFn t tm ls).state
      = (P.next ls.state (cdf ls.roundNum).1).state := rfl

theorem stepOk_uniqueClients {S D : Type} (cfg : Config) (P : Process S D)
    (cdf : Nat → D × List String) (evalFn : S → Bool → Dict) (t : Timings)
    (tm : Dict) (ls : LoopState S) :
    (stepOk cfg P cdf evalFn t tm ls).uniqueClients
      = ls.uniqueClients ∪ ((cdf ls.roundNum).2).toFinset := rfl

theorem stepOk_checkpoints {S D : Type} (cfg : Config) (P : Process S D)
    (cdf : Nat → D × List String) (evalFn : S → Bool → Dict) (t : Timings)
    (tm : Dict) (ls : LoopState S) :
    (stepOk cfg P cdf evalFn t tm ls).checkpoints
      = if shouldCheckpoint cfg ls.roundNum then
          ls.checkpoints
            ++ [(ls.roundNum, (P.next ls.state (cdf ls.roundNum).1).state)]
        else ls.checkpoints := rfl

theorem stepOk_sinks {S D : Type} (cfg : Config) (P : Process S D)
    (cdf : Nat → D × List String) (evalFn : S → Bool → Dict) (t : Timings)
    (tm : Dict) (ls : LoopState S) :
    (stepOk cfg P cdf evalFn t tm ls).sinks
      = if ls.roundNum % cfg.roundsPerEval = 0 then
          (write_metrics
            (.dict (if shouldCheckpoint cfg ls.roundNum then
                dinsert tm "save_checkpoint_secs" (.meas t.ckpt) else tm))
            (.dict (dinsert (evalFn (P.next ls.state (cdf ls.roundNum).1).state false)
                "evaluate_secs" (.meas t.eval)))
            (.int ls.roundNum) ls.sinks).1
        else ls.sinks := rfl

theorem stepOk_inv {S D : Type} (cfg : Config) (P : Process S D)
    (cdf : Nat → D × List String) (evalFn : S → Bool → Dict) (t : Timings)
    (tm : Dict) (ls : LoopState S)
    (htm : dget tm "num_unique_clients"
      = some (.nat (ls.uniqueClients ∪ ((cdf ls.roundNum).2).toFinset).card))
    (hinv : SuccessInv cfg cdf ls) :
    SuccessInv cfg cdf (stepOk cfg P cdf evalFn t tm ls) := by
  obtain ⟨hcl, hck, hlt, htab⟩ := hinv
  have hcl' : ls.uniqueClients ∪ ((cdf ls.roundNum).2).toFinset
      = clientsUpTo cdf (ls.roundNum + 1) := by
    rw [clientsUpTo_succ, hcl]
  have htm' : dget tm "num_unique_clients"
      = some (.nat (clientsUpTo cdf (ls.roundNum + 1)).card) := by
    rw [htm, hcl']
  refine ⟨?_, ?_, ?_, ?_⟩
  · rw [stepOk_uniqueClients, stepOk_roundNum, hcl']
  · rw [stepOk_checkpoints, stepOk_roundNum, List.range_succ,
      List.filter_append]
    by_cases hCk : shouldCheckpoint cfg ls.roundNum <;> simp [hCk, hck]
  · rw [stepOk_checkpoints, stepOk_roundNum]
    by_cases hCk : shouldCheckpoint cfg ls.roundNum
    · rw [if_pos hCk]
      intro p hp
      rcases List.mem_append.mp hp with h1 | h2
      · exact Nat.lt_succ_of_lt (hlt p h1)
      · rw [List.mem_singleton.mp h2]
        exact Nat.lt_succ_self _
    · rw [if_neg hCk]
      intro p hp
      exact Nat.lt_succ_of_lt (hlt p hp)
  · rw [stepOk_sinks, stepOk_roundNum]
    by_cases hEv : ls.roundNum % cfg.roundsPerEval = 0
    · rw [if_pos hEv]
      intro t2 ht2
      cases hT : ls.sinks.table with
      | some t0 =>
        rw [write_metrics_table_some _ _ _ _ t0 hT, Option.some.injEq] at ht2
        obtain ⟨hlen0, hrows0⟩ := htab t0 hT
        constructor
        · rw [← ht2, List.length_append, List.length_take,
            List.length_singleton]
          omega
        · intro row hr
          rw [← ht2] at hr
          rcases List.mem_append.mp hr with h1 | h2
          · have hmem := List.take_subset _ _ h1
            exact ⟨Nat.lt_succ_of_lt (hrows0 row hmem).1, (hrows0 row hmem).2⟩
          · rw [List.mem_singleton.mp h2]
            refine ⟨Nat.lt_succ_self _, ?_⟩
            show dget (if shouldCheckpoint cfg ls.roundNum then
                dinsert tm "save_checkpoint_secs" (.meas t.ckpt) else tm)
                "num_unique_clients" = _
            by_cases hCk : shouldCheckpoint cfg ls.roundNum
            · rw [if_pos hCk, dget_dinsert, if_neg (by decide)]
              exact htm'
            · rw [if_neg hCk]
              exact htm'
      | none =>
        rw [write_metrics_table_none _ _ _ _ hT, Option.some.injEq] at ht2
        constructor
        · rw [← ht2, List.length_singleton]
          omega
        · intro row hr
          rw [← ht2] at hr
          rw [List.mem_singleton.mp hr]
          refine ⟨Nat.lt_succ_self _, ?_⟩
          show dget (if shouldCheckpoint cfg ls.roundNum then
              dinsert tm "save_checkpoint_secs" (.meas t.ckpt) else tm)
              "num_unique_clients" = _
          by_cases hCk : shouldCheckpoint cfg ls.roundNum
          · rw [if_pos hCk, dget_dinsert, if_neg (by decide)]
            exact htm'
          · rw [if_neg hCk]
            exact htm'
    · rw [if_neg hEv]
      intro t2 ht2
      obtain ⟨hlen, hrows⟩ := htab t2 ht2
      exact ⟨Nat.le_succ_of_le hlen,
        fun row hr => ⟨Nat.lt_succ_of_lt (hrows row hr).1, (hrows row hr).2⟩⟩

/-- Master lemma for fault-free runs whose round metrics always carry the
popped timing key and never collide with the loop's own unique-client key:
with enough fuel the loop terminates without error, preserves `SuccessInv`,
stops exactly at `totalRounds`, and — when at least one round was executed —
leaves the checkpoint with the highest round number at `totalRounds - 1`
holding the final state. -/
theorem runLoop_success {S D : Type} (cfg : Config) (P : Process S D)
    (cdf : Nat → D × List String) (evalFn : S → Bool → Dict)
    (l2 : S → S → Nat) (intr : Nat → Option Interrupt) (tms : Nat → Timings)
    (hintr : ∀ n, intr n = none)
    (hker : ∀ s d, dget (P.next s d).metrics kerasKey ≠ none)
    (hnuc : ∀ s d, dget (P.next s d).metrics "num_unique_clients" = none) :
    ∀ (fuel tick : Nat) (ls : LoopState S), SuccessInv cfg cdf ls →
      cfg.totalRounds ≤ ls.roundNum + fuel →
      ∃ ls2 tick2,
        runLoop cfg P cdf evalFn l2 intr tms fuel tick ls
          = some (.ok (ls2, tick2)) ∧
        SuccessInv cfg cdf ls2 ∧
        ls2.roundNum = max ls.roundNum cfg.totalRounds ∧
        (ls.roundNum < cfg.totalRounds →
          loadLatest ls2.checkpoints
            = some (ls2.state, cfg.totalRounds - 1)) ∧
        (cfg.totalRounds ≤ ls.roundNum → ls2 = ls) := by
  intro fuel
  induction fuel with
  | zero =>
    intro tick ls hinv hle
    have hguard : ¬ ls.roundNum < cfg.totalRounds := by omega
    refine ⟨ls, tick, by simp [runLoop, hguard], hinv, ?_, ?_, fun _ => rfl⟩
    · rw [Nat.max_eq_left (by omega)]
    · intro h
      exact absurd h hguard
  | succ n ih =>
    intro tick ls hinv hle
    by_cases hguard : ls.roundNum < cfg.totalRounds
    · have hkr := hker ls.state (cdf ls.roundNum).1
      obtain ⟨tm, htm, hkn, hnu⟩ := buildTrainMetrics_ok_spec
        (l2 (P.next ls.state (cdf ls.roundNum).1).state ls.state)
        (ls.uniqueClients ∪ ((cdf ls.roundNum).2).toFinset).card
        (P.next ls.state (cdf ls.roundNum).1).metrics (tms tick) hkr
      have hbody := loopBody_none_ok cfg P cdf evalFn l2 (tms tick) ls tm htm
      have htm_nuc := hnu (hnuc ls.state (cdf ls.roundNum).1)
      have hstep := stepOk_inv cfg P cdf evalFn (tms tick) tm ls htm_nuc hinv
      have hr1 : (stepOk cfg P cdf evalFn (tms tick) tm ls).roundNum
          = ls.roundNum + 1 := stepOk_roundNum cfg P cdf evalFn (tms tick) tm ls
      obtain ⟨ls2, tick2, hrun, hinv2, hrn2, hlast2, hid2⟩ :=
        ih (tick + 1) (stepOk cfg P cdf evalFn (tms tick) tm ls) hstep
          (by omega)
      refine ⟨ls2, tick2, ?_, hinv2, ?_, ?_, ?_⟩
      · simp only [runLoop, if_pos hguard, hintr tick, hbody]
        exact hrun
      · rw [hrn2, hr1, Nat.max_eq_right (by omega),
          Nat.max_eq_right (by omega)]
      · intro _
        by_cases hmore : (stepOk cfg P cdf evalFn (tms tick) tm ls).roundNum
            < cfg.totalRounds
        · exact hlast2 hmore
        · have heq : ls.roundNum + 1 = cfg.totalRounds := by omega
          have hid := hid2 (by omega)
          rw [hid]
          have hCk : shouldCheckpoint cfg ls.roundNum = true := by
            simp [shouldCheckpoint, heq]
          rw [stepOk_checkpoints, if_pos hCk, stepOk_state]
          rw [loadLatest_append_lt _ _ _ hinv.2.2.1]
          have : cfg.totalRounds - 1 = ls.roundNum := by omega
          rw [this]
      · intro hge
        exact absurd hguard (by omega)
    · refine ⟨ls, tick, by simp [runLoop, hguard], hinv, ?_, ?_, fun _ => rfl⟩
      · rw [Nat.max_eq_left (by omega)]
      · intro h
        exact absurd h hguard

/-- A fault-free fresh run (empty store, no metrics file) terminates, and its
result is the loop's final state, its checkpoint store, and the sinks left by
the final test-evaluation write. -/
theorem run_success {S D : Type} (cfg : Config) (P : Process S D)
    (cdf : Nat → D × List String) (evalFn : S → Bool → Dict)
    (l2 : S → S → Nat) (intr : Nat → Option Interrupt) (tms : Nat → Timings)
    (fuel : Nat)
    (hintr : ∀ n, intr n = none)
    (hker : ∀ s d, dget (P.next s d).metrics kerasKey ≠ none)
    (hnuc : ∀ s d, dget (P.next s d).metrics "num_unique_clients" = none)
    (hfuel : cfg.totalRounds ≤ fuel) :
    ∃ ls2 tick2,
      runLoop cfg P cdf evalFn l2 intr tms fuel 0
          ⟨P.initial, 0, ∅, 0, [], ⟨[], none⟩⟩ = some (.ok (ls2, tick2)) ∧
      SuccessInv cfg cdf ls2 ∧
      ls2.roundNum = cfg.totalRounds ∧
      (0 < cfg.totalRounds →
        loadLatest ls2.checkpoints = some (ls2.state, cfg.totalRounds - 1)) ∧
      run cfg P cdf evalFn l2 intr tms fuel [] ⟨[], none⟩
        = some (.ok (ls2.state, ls2.checkpoints,
            (write_metrics (.dict [])
              (.dict (dinsert (evalFn ls2.state true) "evaluate_secs"
                (.meas (tms tick2).eval)))
              (.int cfg.totalRounds) ls2.sinks).1)) := by
  obtain ⟨ls2, tick2, hrun, hinv2, hrn2, hlast, _⟩ :=
    runLoop_success cfg P cdf evalFn l2 intr tms hintr hker hnuc fuel 0
      ⟨P.initial, 0, ∅, 0, [], ⟨[], none⟩⟩
      ⟨rfl, rfl, by simp, fun t ht => Option.noConfusion ht⟩ (by omega)
  have htot : ls2.roundNum = cfg.totalRounds := by
    rw [hrn2]
    exact Nat.max_eq_right (Nat.zero_le _)
  refine ⟨ls2, tick2, hrun, hinv2, htot, fun h => hlast h, ?_⟩
  simp only [run, initResume, loadLatest, List.foldl_nil]
  rw [hrun]
  simp only [finalizeRun, write_metrics]

/-- Below `totalRounds`, the source's checkpoint condition agrees with the
spec's phrasing in terms of `totalRounds - 1`. -/
theorem shouldCheckpoint_eq (cfg : Config) (r : Nat)
    (hr : r < cfg.totalRounds) :
    shouldCheckpoint cfg r
      = decide (r % cfg.roundsPerCheckpoint = 0
          ∨ r = cfg.totalRounds - 1) := by
  have hiff : (shouldCheckpoint cfg r = true)
      ↔ (r % cfg.roundsPerCheckpoint = 0 ∨ r = cfg.totalRounds - 1) := by
    rw [shouldCheckpoint]
    simp only [Bool.or_eq_true, beq_iff_eq]
    constructor
    · rintro (h | h)
      · exact Or.inl h
      · exact Or.inr (by omega)
    · rintro (h | h)
      · exact Or.inl h
      · exact Or.inr (by omega)
  by_cases hQ : r % cfg.roundsPerCheckpoint = 0 ∨ r = cfg.totalRounds - 1
  · rw [decide_eq_true hQ, hiff.mpr hQ]
  · rw [decide_eq_false hQ]
    cases hB : shouldCheckpoint cfg r
    · rfl
    · exact absurd (hiff.mp hB) hQ

/-! ## Claim C4 -/

/-- C4: in a fault-free run from scratch, a checkpoint is saved after a
successful round exactly when the round number is divisible by the
checkpoint interval or equals `totalRounds - 1`: the rounds recorded in the
checkpoint store at exit are precisely those of `0, ..., totalRounds - 1`
satisfying that condition, in order. -/
theorem checkpoint_cadence {S D : Type} (cfg : Config) (P : Process S D)
    (cdf : Nat → D × List String) (evalFn : S → Bool → Dict)
    (l2 : S → S → Nat) (intr : Nat → Option Interrupt) (tms : Nat → Timings)
    (fuel : Nat)
    (hintr : ∀ n, intr n = none)
    (hker : ∀ s d, dget (P.next s d).metrics kerasKey ≠ none)
    (hnuc : ∀ s d, dget (P.next s d).metrics "num_unique_clients" = none)
    (_hrpc : 0 < cfg.roundsPerCheckpoint)
    (hfuel : cfg.totalRounds ≤ fuel) :
    ∃ out, run cfg P cdf evalFn l2 intr tms fuel [] ⟨[], none⟩
        = some (.ok out) ∧
      out.2.1.map Prod.fst = (List.range cfg.totalRounds).filter
        (fun r => decide (r % cfg.roundsPerCheckpoint = 0
          ∨ r = cfg.totalRounds - 1)) := by
  obtain ⟨ls2, tick2, _, hinv2, htot, _, hrune⟩ :=
    run_success cfg P cdf evalFn l2 intr tms fuel hintr hker hnuc hfuel
  refine ⟨_, hrune, ?_⟩
  show ls2.checkpoints.map Prod.fst = _
  rw [hinv2.2.1, htot]
  apply List.filter_congr
  intro r hr
  exact shouldCheckpoint_eq cfg r (List.mem_range.mp hr)

theorem checkpoint_cadence_witness :
    ∃ out, run ⟨120, 50, 1⟩ procUnit cdfA evalZero l2Zero intrNone tmsZero
        120 [] ⟨[], none⟩ = some (.ok out) ∧
      out.2.1.map Prod.fst = [0, 50, 100, 119] := by
  obtain ⟨out, hrun, hmap⟩ := checkpoint_cadence ⟨120, 50, 1⟩ procUnit cdfA
    evalZero l2Zero intrNone tmsZero 120 (fun _ => rfl)
    (fun s d => by cases s; cases d; decide)
    (fun s d => by cases s; cases d; decide) (by decide) (by decide)
  refine ⟨out, hrun, ?_⟩
  rw [hmap]
  decide

/-! ## Claim C6 -/

/-- C6: after the main loop exits, the evaluation function is called with
the test-dataset flag set to true and exactly one final record is appended,
keyed by round number `totalRounds`, with empty train metrics and the test
evaluation metrics, while every in-loop record in the table has round number
strictly below `totalRounds`. -/
theorem final_sentinel {S D : Type} (cfg : Config) (P : Process S D)
    (cdf : Nat → D × List String) (evalFn : S → Bool → Dict)
    (l2 : S → S → Nat) (intr : Nat → Option Interrupt) (tms : Nat → Timings)
    (fuel : Nat)
    (hintr : ∀ n, intr n = none)
    (hker : ∀ s d, dget (P.next s d).metrics kerasKey ≠ none)
    (hnuc : ∀ s d, dget (P.next s d).metrics "num_unique_clients" = none)
    (hfuel : cfg.totalRounds ≤ fuel) :
    ∃ out rows tv,
      run cfg P cdf evalFn l2 intr tms fuel [] ⟨[], none⟩
        = some (.ok out) ∧
      out.2.2.table = some (rows
        ++ [⟨cfg.totalRounds, [],
             dinsert (evalFn out.1 true) "evaluate_secs" (.meas tv)⟩]) ∧
      ∀ row ∈ rows, row.round < cfg.totalRounds := by
  obtain ⟨ls2, tick2, _, hinv2, htot, _, hrune⟩ :=
    run_success cfg P cdf evalFn l2 intr tms fuel hintr hker hnuc hfuel
  cases hT : ls2.sinks.table with
  | some t0 =>
    obtain ⟨hlen, hrows⟩ := hinv2.2.2.2 t0 hT
    refine ⟨_, t0, (tms tick2).eval, hrune, ?_, ?_⟩
    · show (write_metrics (.dict [])
          (.dict (dinsert (evalFn ls2.state true) "evaluate_secs"
            (.meas (tms tick2).eval)))
          (.int cfg.totalRounds) ls2.sinks).1.table = _
      rw [write_metrics_table_some _ _ _ _ t0 hT,
        List.take_of_length_le (by omega)]
    · intro row hr
      exact htot ▸ (hrows row hr).1
  | none =>
    refine ⟨_, [], (tms tick2).eval, hrune, ?_, by simp⟩
    show (write_metrics (.dict [])
        (.dict (dinsert (evalFn ls2.state true) "evaluate_secs"
          (.meas (tms tick2).eval)))
        (.int cfg.totalRounds) ls2.sinks).1.table = _
    rw [write_metrics_table_none _ _ _ _ hT]
    simp

theorem final_sentinel_witness :
    ∃ out rows tv,
      run ⟨2, 1, 1⟩ procUnit cdfA evalZero l2Zero intrNone tmsZero 2 []
          ⟨[], none⟩ = some (.ok out) ∧
      out.2.2.table = some (rows
        ++ [⟨2, [], dinsert (evalZero out.1 true) "evaluate_secs"
              (.meas tv)⟩]) ∧
      ∀ row ∈ rows, row.round < 2 :=
  final_sentinel ⟨2, 1, 1⟩ procUnit cdfA evalZero l2Zero intrNone tmsZero 2
    (fun _ => rfl) (fun s d => by cases s; cases d; decide)
    (fun s d => by cases s; cases d; decide) (by decide)

/-! ## Claim C7 -/

/-- C7: in a fault-free run from scratch, every in-loop metrics row carries
as its `num_unique_clients` train metric the cardinality of the union of the
client-id sets sampled for rounds `0` through that row's round — duplicates
across rounds do not increase the count. -/
theorem unique_clients_union {S D : Type} (cfg : Config) (P : Process S D)
    (cdf : Nat → D × List String) (evalFn : S → Bool → Dict)
    (l2 : S → S → Nat) (intr : Nat → Option Interrupt) (tms : Nat → Timings)
    (fuel : Nat)
    (hintr : ∀ n, intr n = none)
    (hker : ∀ s d, dget (P.next s d).metrics kerasKey ≠ none)
    (hnuc : ∀ s d, dget (P.next s d).metrics "num_unique_clients" = none)
    (hfuel : cfg.totalRounds ≤ fuel) :
    ∃ out, run cfg P cdf evalFn l2 intr tms fuel [] ⟨[], none⟩
        = some (.ok out) ∧
      ∀ t row, out.2.2.table = some t → row ∈ t →
        row.round < cfg.totalRounds →
        dget row.train "num_unique_clients"
          = some (.nat (clientsUpTo cdf (row.round + 1)).card) := by
  obtain ⟨ls2, tick2, _, hinv2, htot, _, hrune⟩ :=
    run_success cfg P cdf evalFn l2 intr tms fuel hintr hker hnuc hfuel
  refine ⟨_, hrune, ?_⟩
  intro t row ht hmem hlt
  cases hT : ls2.sinks.table with
  | some t0 =>
    obtain ⟨hlen, hrows⟩ := hinv2.2.2.2 t0 hT
    have ht' : (write_metrics (.dict [])
        (.dict (dinsert (evalFn ls2.state true) "evaluate_secs"
          (.meas (tms tick2).eval)))
        (.int cfg.totalRounds) ls2.sinks).1.table = some t := ht
    rw [write_metrics_table_some _ _ _ _ t0 hT, Option.some.injEq] at ht'
    rw [← ht'] at hmem
    rcases List.mem_append.mp hmem with h1 | h2
    · exact (hrows row (List.take_subset _ _ h1)).2
    · rw [List.mem_singleton.mp h2] at hlt
      exact absurd hlt (Nat.lt_irrefl _)
  | none =>
    have ht' : (write_metrics (.dict [])
        (.dict (dinsert (evalFn ls2.state true) "evaluate_secs"
          (.meas (tms tick2).eval)))
        (.int cfg.totalRounds) ls2.sinks).1.table = some t := ht
    rw [write_metrics_table_none _ _ _ _ hT, Option.some.injEq] at ht'
    rw [← ht'] at hmem
    rw [List.mem_singleton.mp hmem] at hlt
    exact absurd hlt (Nat.lt_irrefl _)

theorem unique_clients_union_witness :
    ∃ out, run ⟨3, 5, 1⟩ procUnit cdfSets evalZero l2Zero intrNone tmsZero 3
        [] ⟨[], none⟩ = some (.ok out) ∧
      ∀ t row, out.2.2.table = some t → row ∈ t → row.round = 2 →
        dget row.train "num_unique_clients" = some (.nat 4) := by
  obtain ⟨out, hrun, hprop⟩ := unique_clients_union ⟨3, 5, 1⟩ procUnit
    cdfSets evalZero l2Zero intrNone tmsZero 3 (fun _ => rfl)
    (fun s d => by cases s; cases d; decide)
    (fun s d => by cases s; cases d; decide) (by decide)
  refine ⟨out, hrun, ?_⟩
  intro t row ht hmem hr2
  have hprop2 := hprop t row ht hmem (by rw [hr2]; decide)
  rw [hr2] at hprop2
  rw [hprop2]
  have hc : (clientsUpTo cdfSets 3).card = 4 := by decide
  rw [hc]

/-! ## Claim C8 -/

/-- C8: a fault-free run to completion from an empty checkpoint store,
followed by a re-run against the store and metrics file it left behind,
resumes at round number `totalRounds`, so the second run executes zero loop
iterations (it succeeds even with zero fuel), leaves the checkpoint store as
it was, and returns the same state as the first run. -/
theorem resumption_idempotent {S D : Type} (cfg : Config) (P : Process S D)
    (cdf : Nat → D × List String) (evalFn : S → Bool → Dict)
    (l2 : S → S → Nat) (intr : Nat → Option Interrupt) (tms : Nat → Timings)
    (fuel : Nat)
    (hintr : ∀ n, intr n = none)
    (hker : ∀ s d, dget (P.next s d).metrics kerasKey ≠ none)
    (hnuc : ∀ s d, dget (P.next s d).metrics "num_unique_clients" = none)
    (htot1 : 1 ≤ cfg.totalRounds)
    (hfuel : cfg.totalRounds ≤ fuel) :
    ∃ s ck sk,
      run cfg P cdf evalFn l2 intr tms fuel [] ⟨[], none⟩
        = some (.ok (s, ck, sk)) ∧
      ∃ sk2, run cfg P cdf evalFn l2 intr tms 0 ck sk
        = some (.ok (s, ck, sk2)) := by
  obtain ⟨ls2, tick2, _, hinv2, htot, hlast, hrune⟩ :=
    run_success cfg P cdf evalFn l2 intr tms fuel hintr hker hnuc hfuel
  have hL := hlast (by omega)
  have h1 : cfg.totalRounds - 1 + 1 = cfg.totalRounds := by omega
  have hres : initResume P.initial ls2.checkpoints
      = (ls2.state, cfg.totalRounds) := by
    simp only [initResume, hL, h1]
  refine ⟨ls2.state, ls2.checkpoints, _, hrune, ?_⟩
  refine ⟨(write_metrics (.dict [])
      (.dict (dinsert (evalFn ls2.state true) "evaluate_secs"
        (.meas (tms 0).eval)))
      (.int cfg.totalRounds)
      ((write_metrics (.dict [])
        (.dict (dinsert (evalFn ls2.state true) "evaluate_secs"
          (.meas (tms tick2).eval)))
        (.int cfg.totalRounds) ls2.sinks).1)).1, ?_⟩
  simp [run, hres, runLoop, finalizeRun, write_metrics]

theorem resumption_idempotent_witness :
    ∃ s ck sk,
      run ⟨1, 1, 1⟩ procUnit cdfA evalZero l2Zero intrNone tmsZero 1 []
          ⟨[], none⟩ = some (.ok (s, ck, sk)) ∧
      ∃ sk2, run ⟨1, 1, 1⟩ procUnit cdfA evalZero l2Zero intrNone tmsZero 0
          ck sk = some (.ok (s, ck, sk2)) :=
  resumption_idempotent ⟨1, 1, 1⟩ procUnit cdfA evalZero l2Zero intrNone
    tmsZero 1 (fun _ => rfl) (fun s d => by cases s; cases d; decide)
    (fun s d => by cases s; cases d; decide) (by decide) (by decide)

end TrainingLoop
